import Mathlib

/-
Shallow embedding of the ChalkLet whiteboard scene engine
(src/components/whiteboard/canvas.tsx).

Modelling conventions:
 - TypeScript numbers are modelled as rationals (ℚ).  The source's flat
   point arrays `[x, y, x, y, ...]` are modelled as `List Pt`, one entry
   per coordinate pair.
 - `Math.hypot` / `Math.sqrt` appear in the source in two roles:
   (a) under a comparison with a threshold, e.g. `Math.hypot(dx,dy) <= t`;
       these are encoded exactly without square roots, using the
       real-number equivalence  sqrt d2 <= t  <->  0 <= t /\ d2 <= t^2
       (and its variants, derived in comments where used);
   (b) as a stored value (circle draft radius, circle resize radius,
       eraser interpolation step count); these are modelled by an abstract
       parameter  hyp : ℚ → ℚ → ℚ  standing for fun dx dy => Math.hypot dx dy.
 - React `useState`/`useRef` cells become fields of `CanvasState`; the
   event handlers become pure functions `CanvasState → CanvasState`.
 - `JSON.parse(JSON.stringify(..))` (deep clone) is the identity on this
   pure data model.
-/

namespace ChalkLet

/-- A world- or screen-space point (one `x,y` pair of the source's flat arrays). -/
structure Pt where
  x : ℚ
  y : ℚ
deriving DecidableEq

/-- The tool union type (canvas.tsx line 6). -/
inductive Tool where
  | pen | eraser | rect | circle | line | arrow | triangle | pan | select | laser
deriving DecidableEq

/-- Brush style union (canvas.tsx line 7). -/
inductive BrushStyle where
  | round | square | dashed
deriving DecidableEq

/-- A freehand stroke (`LineItem`, canvas.tsx lines 10-16). -/
structure LineItem where
  tool : Tool
  points : List Pt
  color : String
  strokeWidth : ℚ
  brushStyle : BrushStyle
deriving DecidableEq

/-- `RectItem` (canvas.tsx lines 18-26). -/
structure RectItem where
  x : ℚ
  y : ℚ
  width : ℚ
  height : ℚ
  stroke : String
  strokeWidth : ℚ
  dashed : Bool
deriving DecidableEq

/-- `CircleItem` (canvas.tsx line 27). -/
structure CircleItem where
  x : ℚ
  y : ℚ
  radius : ℚ
  stroke : String
  strokeWidth : ℚ
  dashed : Bool
deriving DecidableEq

/-- `SimpleLineItem` (canvas.tsx lines 28-36). -/
structure SimpleLineItem where
  x1 : ℚ
  y1 : ℚ
  x2 : ℚ
  y2 : ℚ
  stroke : String
  strokeWidth : ℚ
  dashed : Bool
deriving DecidableEq

/-- `ArrowItem = SimpleLineItem` (canvas.tsx line 37). -/
abbrev ArrowItem := SimpleLineItem

/-- `TriangleItem` (canvas.tsx lines 38-48). -/
structure TriangleItem where
  x1 : ℚ
  y1 : ℚ
  x2 : ℚ
  y2 : ℚ
  x3 : ℚ
  y3 : ℚ
  stroke : String
  strokeWidth : ℚ
  dashed : Bool
deriving DecidableEq

/-! ## Geometry and hit-testing (canvas.tsx lines 477-517) -/

/-- Squared Euclidean distance; `Math.hypot(p.x-q.x, p.y-q.y) ^ 2`. -/
def dist2 (p q : Pt) : ℚ :=
  (p.x - q.x) ^ 2 + (p.y - q.y) ^ 2

/-- `sqrt d2 <= t` over the reals, encoded without square roots: for `d2 >= 0`,
`sqrt d2 <= t  <->  0 <= t /\ d2 <= t ^ 2`. -/
def sqrtLe (d2 t : ℚ) : Bool :=
  decide (0 ≤ t) && decide (d2 ≤ t ^ 2)

/-- Squared distance from `(px,py)` to segment `(x1,y1)-(x2,y2)`; embeds
`distPointToSeg` (canvas.tsx lines 478-488), returning the square of the
source's return value (projection parameter `t` and foot point are rational). -/
def distPointToSeg2 (px py x1 y1 x2 y2 : ℚ) : ℚ :=
  let dx := x2 - x1
  let dy := y2 - y1
  let len2 := dx * dx + dy * dy
  if len2 = 0 then (px - x1) ^ 2 + (py - y1) ^ 2
  else
    let t := max 0 (min 1 (((px - x1) * dx + (py - y1) * dy) / len2))
    let fx := x1 + t * dx
    let fy := y1 + t * dy
    (px - fx) ^ 2 + (py - fy) ^ 2

/-- `distPointToSeg(...) <= t`, via the squared encoding. -/
def segHit (px py x1 y1 x2 y2 t : ℚ) : Bool :=
  sqrtLe (distPointToSeg2 px py x1 y1 x2 y2) t

/-- Consecutive-segment scan of `polylineHit` (canvas.tsx lines 489-494):
the loop `for (i = 0; i + 3 < points.length; i += 2)` walks every pair of
consecutive points. -/
def polylineHitAux (px py thresh : ℚ) : List Pt → Bool
  | p :: q :: rest => segHit px py p.x p.y q.x q.y thresh || polylineHitAux px py thresh (q :: rest)
  | _ => false
termination_by l => l.length

/-- `polylineHit` (canvas.tsx lines 489-494). -/
def polylineHit (points : List Pt) (px py thresh : ℚ) : Bool :=
  polylineHitAux px py thresh points

/-- `rectHit` (canvas.tsx lines 495-503): distance to each of the four edges. -/
def rectHit (r : RectItem) (px py t : ℚ) : Bool :=
  segHit px py r.x r.y (r.x + r.width) r.y t ||
  segHit px py (r.x + r.width) r.y (r.x + r.width) (r.y + r.height) t ||
  segHit px py (r.x + r.width) (r.y + r.height) r.x (r.y + r.height) t ||
  segHit px py r.x (r.y + r.height) r.x r.y t

/-- `circleHit` (canvas.tsx lines 504-507): `|hypot(px-cx, py-cy) - radius| <= t`.
With `d := sqrt d2 >= 0` this is `d <= radius + t` and `radius - t <= d`, i.e.
`(0 <= radius + t /\ d2 <= (radius+t)^2) /\ (radius - t <= 0 \/ (radius-t)^2 <= d2)`. -/
def circleHit (c : CircleItem) (px py t : ℚ) : Bool :=
  let d2 := (px - c.x) ^ 2 + (py - c.y) ^ 2
  (decide (0 ≤ c.radius + t) && decide (d2 ≤ (c.radius + t) ^ 2)) &&
  (decide (c.radius - t ≤ 0) || decide ((c.radius - t) ^ 2 ≤ d2))

/-- `lineHit` (canvas.tsx lines 508-510). -/
def lineHit (l : SimpleLineItem) (px py t : ℚ) : Bool :=
  segHit px py l.x1 l.y1 l.x2 l.y2 t

/-- `triangleHit` (canvas.tsx lines 511-517). -/
def triangleHit (tr : TriangleItem) (px py t : ℚ) : Bool :=
  segHit px py tr.x1 tr.y1 tr.x2 tr.y2 t ||
  segHit px py tr.x2 tr.y2 tr.x3 tr.y3 t ||
  segHit px py tr.x3 tr.y3 tr.x1 tr.y1 t

/-! ## Viewport (canvas.tsx lines 152-198) -/

/-- `getWorldPoint` (canvas.tsx lines 153-166): client coordinates minus the
canvas bounding-rect origin give CSS pixels, then the inverse viewport
transform gives world coordinates. -/
def getWorldPoint (rectLeft rectTop : ℚ) (offset : Pt) (scale : ℚ)
    (clientX clientY : ℚ) : Pt :=
  ⟨(clientX - rectLeft - offset.x) / scale, (clientY - rectTop - offset.y) / scale⟩

/-- `handleWheel` (canvas.tsx lines 173-198): returns the new `(scale, offset)`
pair.  `SCALE_BY = 1.05`, clamp range `[MIN_SCALE, MAX_SCALE] = [0.5, 3]`.
(The source's early return when the canvas ref is null — in which case only the
scale would be written — cannot occur while the canvas is mounted and is not
modelled.) -/
def handleWheel (rectLeft rectTop : ℚ) (scale : ℚ) (offset : Pt)
    (deltaY clientX clientY : ℚ) : ℚ × Pt :=
  let direction : ℤ := if 0 < deltaY then -1 else 1
  let before := getWorldPoint rectLeft rectTop offset scale clientX clientY
  let raw := if 0 < direction then scale * 1.05 else scale / 1.05
  let newScale := min 3 (max 0.5 raw)
  let xCss := clientX - rectLeft
  let yCss := clientY - rectTop
  (newScale, ⟨xCss - before.x * newScale, yCss - before.y * newScale⟩)

/-! ## Interaction state (canvas.tsx lines 89-116, 200-224) -/

/-- The transient draft union (`setDraft({type: ...})`, canvas.tsx lines 241-250). -/
inductive DraftShape where
  | rect (x y width height : ℚ)
  | circle (x y radius : ℚ)
  | line (x1 y1 x2 y2 : ℚ)
  | arrow (x1 y1 x2 y2 : ℚ)
  | triangle (x1 y1 x2 y2 x3 y3 : ℚ)
deriving DecidableEq

/-- Selectable shape kinds (`selected.kind`, canvas.tsx lines 107-110). -/
inductive SelKind where
  | rect | circle | line | arrow | triangle
deriving DecidableEq

/-- Kinds returned by `shapeUnderPointer` (the five selectable kinds plus `pen`). -/
inductive HitKind where
  | pen | rect | circle | line | arrow | triangle
deriving DecidableEq

/-- The current selection, a `(kind, index)` reference (canvas.tsx lines 107-110). -/
structure Selected where
  kind : SelKind
  idx : ℕ
deriving DecidableEq

/-- The baseline copy `interactionRef.original` (typed here; the source stores `any`). -/
inductive Orig where
  | ofRect (o : RectItem)
  | ofCircle (o : CircleItem)
  | ofLine (o : SimpleLineItem)
  | ofArrow (o : ArrowItem)
  | ofTriangle (o : TriangleItem)
deriving DecidableEq

/-- `interactionRef.mode` (canvas.tsx line 112). -/
inductive IMode where
  | moving | resizing
deriving DecidableEq

/-- `interactionRef.current` (canvas.tsx lines 111-116).  `original` is an
`Option`: the source reads `rects[idx]` etc. without a bound check; an
out-of-range index (impossible in the flows modelled here) is `none`. -/
structure Interaction where
  mode : IMode
  handle : Option ℕ
  start : Pt
  original : Option Orig
deriving DecidableEq

/-- A history `Snapshot` (canvas.tsx lines 200-207): deep copies of the six
shape sequences (deep copy is the identity on this pure data model). -/
structure Snapshot where
  lines : List LineItem
  rects : List RectItem
  circles : List CircleItem
  simpleLines : List SimpleLineItem
  arrows : List ArrowItem
  triangles : List TriangleItem
deriving DecidableEq

/-- The mutable component state: every `useState`/`useRef` cell of
`WhiteboardCanvas` that the scene engine reads or writes (the render-only
`eraserCursorRef` and device-pixel-ratio bookkeeping are omitted). -/
structure CanvasState where
  scale : ℚ
  offset : Pt
  lines : List LineItem
  rects : List RectItem
  circles : List CircleItem
  simpleLines : List SimpleLineItem
  arrows : List ArrowItem
  triangles : List TriangleItem
  draft : Option DraftShape
  selected : Option Selected
  interaction : Option Interaction
  drawing : Bool
  erasingPath : List Pt
  laser : List (Pt × ℚ)
  history : List Snapshot
  isPanning : Bool
  panLast : Option Pt
deriving DecidableEq

/-- The per-event configuration: the component props `tool`, `color`,
`strokeWidth`, `brushStyle` plus the canvas bounding-rect origin
(`canvas.getBoundingClientRect().left/.top`) supplied by the host page. -/
structure Config where
  tool : Tool
  color : String
  strokeWidth : ℚ
  brushStyle : BrushStyle
  rectLeft : ℚ
  rectTop : ℚ
deriving DecidableEq

/-- The six shape sequences of a state, as a snapshot value. -/
def sceneOf (st : CanvasState) : Snapshot :=
  ⟨st.lines, st.rects, st.circles, st.simpleLines, st.arrows, st.triangles⟩

/-! ## History stack (canvas.tsx lines 208-224) -/

/-- `MAX_HISTORY = 100` (canvas.tsx line 209). -/
def MAX_HISTORY : ℕ := 100

/-- The stack discipline of `pushHistory` (canvas.tsx lines 210-224): push the
snapshot, then `shift()` (drop the oldest, at the front) once the depth
exceeds `MAX_HISTORY`. -/
def pushSnap (h : List Snapshot) (s : Snapshot) : List Snapshot :=
  let pushed := h ++ [s]
  if MAX_HISTORY < pushed.length then pushed.tail else pushed

/-- `pushHistory` (canvas.tsx lines 210-224): deep-clone the six sequences of
the current state and push. -/
def pushHistory (st : CanvasState) : CanvasState :=
  { st with history := pushSnap st.history (sceneOf st) }

/-- The Ctrl/Cmd+Z handler (canvas.tsx lines 1244-1263): `pop()` the most
recent snapshot; on `undefined` return unchanged, otherwise restore the six
sequences wholesale and clear draft, selection and interaction. -/
def undoStep (st : CanvasState) : CanvasState :=
  match st.history.getLast? with
  | none => st
  | some snap =>
    { st with
      lines := snap.lines, rects := snap.rects, circles := snap.circles,
      simpleLines := snap.simpleLines, arrows := snap.arrows, triangles := snap.triangles,
      history := st.history.dropLast,
      draft := none, selected := none, interaction := none }

/-! ## Drafting (canvas.tsx lines 226-295) -/

/-- The draft-update branches of `updateDrawing` (canvas.tsx lines 272-291).
`hyp` stands for `Math.sqrt(dx*dx + dy*dy)` in the circle branch.  In the
triangle branch the source sets `x3 = x1 * 2 - x2` and `y3 = y2`. -/
def updateDraft (hyp : ℚ → ℚ → ℚ) (d : DraftShape) (pos : Pt) : DraftShape :=
  match d with
  | .rect x y _ _ => .rect x y (pos.x - x) (pos.y - y)
  | .circle x y _ => .circle x y (hyp (pos.x - x) (pos.y - y))
  | .line x1 y1 _ _ => .line x1 y1 pos.x pos.y
  | .arrow x1 y1 _ _ => .arrow x1 y1 pos.x pos.y
  | .triangle x1 y1 _ _ _ _ => .triangle x1 y1 pos.x pos.y (x1 * 2 - pos.x) pos.y

/-- `updateDrawing` (canvas.tsx lines 260-295): pen appends to the last stroke
while drawing; eraser is handled elsewhere; any other tool updates the draft. -/
def updateDrawing (cfg : Config) (hyp : ℚ → ℚ → ℚ) (st : CanvasState) (pos : Pt) :
    CanvasState :=
  match cfg.tool with
  | .pen =>
    if st.drawing then
      match st.lines.getLast? with
      | none => st
      | some last =>
        { st with lines := st.lines.dropLast ++ [{ last with points := last.points ++ [pos] }] }
    else st
  | .eraser => st
  | _ =>
    match st.draft with
    | none => st
    | some d => { st with draft := some (updateDraft hyp d pos) }

/-- `startDrawing` (canvas.tsx lines 226-258). -/
def startDrawing (cfg : Config) (now : ℚ) (st : CanvasState) (pos : Pt) : CanvasState :=
  match cfg.tool with
  | .pen =>
    { st with
      lines := st.lines ++ [⟨.pen, [pos], cfg.color, cfg.strokeWidth, cfg.brushStyle⟩],
      drawing := true }
  | .eraser => { st with erasingPath := [pos], drawing := true }
  | .rect => { st with draft := some (.rect pos.x pos.y 0 0) }
  | .circle => { st with draft := some (.circle pos.x pos.y 0) }
  | .line => { st with draft := some (.line pos.x pos.y pos.x pos.y) }
  | .arrow => { st with draft := some (.arrow pos.x pos.y pos.x pos.y) }
  | .triangle =>
    { st with draft := some (.triangle pos.x pos.y pos.x pos.y pos.x pos.y) }
  | .laser => { st with laser := st.laser ++ [(pos, now)], drawing := true }
  | _ => st

/-- `endDrawing` (canvas.tsx lines 365-439): finalize the draft (if any) into
the scene with the current style; the snapshot was already pushed on
pointer-down. -/
def endDrawing (cfg : Config) (st : CanvasState) : CanvasState :=
  if cfg.tool = .eraser then { st with erasingPath := [], drawing := false }
  else if cfg.tool = .laser then { st with drawing := false }
  else
    match st.draft with
    | none => { st with drawing := false }
    | some d =>
      let st1 := { st with drawing := false, draft := none }
      match d with
      | .rect x y w h =>
        { st1 with rects := st.rects ++ [⟨x, y, w, h, cfg.color, cfg.strokeWidth, cfg.brushStyle = .dashed⟩] }
      | .circle x y r =>
        { st1 with circles := st.circles ++ [⟨x, y, r, cfg.color, cfg.strokeWidth, cfg.brushStyle = .dashed⟩] }
      | .line x1 y1 x2 y2 =>
        { st1 with simpleLines := st.simpleLines ++ [⟨x1, y1, x2, y2, cfg.color, cfg.strokeWidth, cfg.brushStyle = .dashed⟩] }
      | .arrow x1 y1 x2 y2 =>
        { st1 with arrows := st.arrows ++ [⟨x1, y1, x2, y2, cfg.color, cfg.strokeWidth, cfg.brushStyle = .dashed⟩] }
      | .triangle x1 y1 x2 y2 x3 y3 =>
        { st1 with triangles := st.triangles ++ [⟨x1, y1, x2, y2, x3, y3, cfg.color, cfg.strokeWidth, cfg.brushStyle = .dashed⟩] }

/-! ## Bounding boxes and resize (canvas.tsx lines 441-475, 1047-1128) -/

/-- Axis-aligned bounding box `{x0, y0, x1, y1}`. -/
structure BBox where
  x0 : ℚ
  y0 : ℚ
  x1 : ℚ
  y1 : ℚ
deriving DecidableEq

/-- `getRectBBox` (canvas.tsx lines 441-447). -/
def getRectBBox (r : RectItem) : BBox :=
  ⟨min r.x (r.x + r.width), min r.y (r.y + r.height),
   max r.x (r.x + r.width), max r.y (r.y + r.height)⟩

/-- `getCircleBBox` (canvas.tsx lines 448-453). -/
def getCircleBBox (c : CircleItem) : BBox :=
  ⟨c.x - c.radius, c.y - c.radius, c.x + c.radius, c.y + c.radius⟩

/-- `getLineBBox` (canvas.tsx lines 454-459). -/
def getLineBBox (l : SimpleLineItem) : BBox :=
  ⟨min l.x1 l.x2, min l.y1 l.y2, max l.x1 l.x2, max l.y1 l.y2⟩

/-- `getTriBBox` (canvas.tsx lines 460-465). -/
def getTriBBox (t : TriangleItem) : BBox :=
  ⟨min t.x1 (min t.x2 t.x3), min t.y1 (min t.y2 t.y3),
   max t.x1 (max t.x2 t.x3), max t.y1 (max t.y2 t.y3)⟩

/-- The rectangle-resizing branch of `onPointerMove` (canvas.tsx lines
1047-1069): normalize to the bbox of the original, move the two free
coordinates of the dragged corner, clamped so opposite edges never cross
(`Math.min(x1 - 1, x0 + dx)` and the three symmetric forms), then write back
origin plus width/height.  Handles: 0 = top-left, 1 = top-right,
2 = bottom-right, 3 = bottom-left; any other id leaves the bbox unchanged. -/
def resizeRect (o : RectItem) (handle : ℕ) (dx dy : ℚ) : RectItem :=
  let b := getRectBBox o
  let c :=
    if handle = 0 then ⟨min (b.x1 - 1) (b.x0 + dx), min (b.y1 - 1) (b.y0 + dy), b.x1, b.y1⟩
    else if handle = 1 then ⟨b.x0, min (b.y1 - 1) (b.y0 + dy), max (b.x0 + 1) (b.x1 + dx), b.y1⟩
    else if handle = 2 then ⟨b.x0, b.y0, max (b.x0 + 1) (b.x1 + dx), max (b.y0 + 1) (b.y1 + dy)⟩
    else if handle = 3 then (⟨min (b.x1 - 1) (b.x0 + dx), b.y0, b.x1, max (b.y0 + 1) (b.y1 + dy)⟩ : BBox)
    else b
  { o with x := c.x0, y := c.y0, width := c.x1 - c.x0, height := c.y1 - c.y0 }

/-- The line/arrow-resizing branch of `onPointerMove` (canvas.tsx lines
1081-1101): handles 0 and 3 move the `(x1,y1)` endpoint by the displacement,
every other handle moves `(x2,y2)`. -/
def resizeLine (o : SimpleLineItem) (handle : ℕ) (dx dy : ℚ) : SimpleLineItem :=
  if handle = 0 ∨ handle = 3 then { o with x1 := o.x1 + dx, y1 := o.y1 + dy }
  else { o with x2 := o.x2 + dx, y2 := o.y2 + dy }

/-- The triangle-resizing branch of `onPointerMove` (canvas.tsx lines
1102-1128): pick the vertex nearest to the gesture start (`Math.hypot`
comparisons with strict `<`, first minimum wins; encoded with squared
distances, which `Math.hypot`'s monotonicity makes equivalent) and move it by
the displacement. -/
def resizeTriangle (o : TriangleItem) (start : Pt) (dx dy : ℚ) : TriangleItem :=
  let d1 := dist2 ⟨o.x1, o.y1⟩ start
  let d2 := dist2 ⟨o.x2, o.y2⟩ start
  let d3 := dist2 ⟨o.x3, o.y3⟩ start
  let idx : ℕ := if d2 < d1 then (if d3 < d2 then 2 else 1) else (if d3 < d1 then 2 else 0)
  if idx = 0 then { o with x1 := o.x1 + dx, y1 := o.y1 + dy }
  else if idx = 1 then { o with x2 := o.x2 + dx, y2 := o.y2 + dy }
  else { o with x3 := o.x3 + dx, y3 := o.y3 + dy }

/-! ## Eraser segmenter (canvas.tsx lines 1211-1242) -/

/-- `Math.hypot(px - ex, py - ey) <= radius`, encoded exactly via squares
(over the reals, `sqrt d2 <= r  <->  0 <= r /\ d2 <= r ^ 2`). -/
def withinRadius (p e : Pt) (radius : ℚ) : Bool :=
  sqrtLe (dist2 p e) radius

/-- The per-point erasure test of `splitPolylineByEraser` (canvas.tsx lines
1214-1227): a stroke point is `near` when some eraser-path point lies within
`radius` of it (the source's inner loop with early `break` is `List.any`). -/
def nearEraser (path : List Pt) (radius : ℚ) (p : Pt) : Bool :=
  path.any fun e => withinRadius p e radius

/-- The segment-building loop of `splitPolylineByEraser` (canvas.tsx lines
1229-1239): walk the `(point, keep)` pairs, growing the current run on a kept
point and emitting it (when it has at least 2 points, i.e. at least 4 flat
numbers) on an erased point; emit the final run the same way. -/
def buildSegs : List (Pt × Bool) → List Pt → List (List Pt)
  | [], cur => if 2 ≤ cur.length then [cur] else []
  | (p, k) :: rest, cur =>
    if k then buildSegs rest (cur ++ [p])
    else (if 2 ≤ cur.length then [cur] else []) ++ buildSegs rest []

/-- `splitPolylineByEraser` (canvas.tsx lines 1211-1242).  Flat-array lengths
translate to point counts: `points.length < 4` is fewer than 2 points and
`seg.length >= 4` is at least 2 points. -/
def splitPolylineByEraser (points path : List Pt) (radius : ℚ) : List (List Pt) :=
  if points.length < 2 then [points]
  else
    let keep := points.map fun p => !nearEraser path radius p
    (buildSegs (points.zip keep) []).filter fun seg => 2 ≤ seg.length

/-- The spec's reading of the segmenter core, written from its words: the
maximal runs of consecutive elements satisfying `f` (for the segmenter, the
non-erased stroke points), in order.  Second definition, kept for comparison
with the loop-based `buildSegs` of the source. -/
def runsBy (f : α → Bool) : List α → List (List α)
  | [] => []
  | a :: as =>
    if f a then (a :: as.takeWhile f) :: runsBy f (as.dropWhile f)
    else runsBy f as
termination_by l => l.length
decreasing_by
  · simp only [List.length_cons]
    exact Nat.lt_succ_of_le ((List.dropWhile_suffix f).sublist.length_le)
  · simp

/-- The spec's segmenter, written from its words: mark each stroke point
erased when some eraser-path point lies within the radius, partition into
maximal runs of consecutive non-erased points, and keep only runs with at
least 2 points. -/
def segmenterSpec (points path : List Pt) (radius : ℚ) : List (List Pt) :=
  (runsBy (fun p => !nearEraser path radius p) points).filter fun seg => 2 ≤ seg.length

/-- `applyEraserDeletion` (canvas.tsx lines 297-363): ignore paths shorter
than 2 flat numbers (1 point), clamp the threshold to at least 2, segment
every pen stroke, and delete whole rectangles/circles/lines/arrows/triangles
whose border any path point touches within the threshold. -/
def applyEraserDeletion (st : CanvasState) (path : List Pt) (threshold : ℚ) :
    CanvasState :=
  if path.length < 1 then st
  else
    let t := max 2 threshold
    { st with
      lines := st.lines.flatMap fun l =>
        if l.tool ≠ .pen then [l]
        else (splitPolylineByEraser l.points path (max t (l.strokeWidth / 2))).map
          fun seg => { l with points := seg },
      rects := st.rects.filter fun r => !path.any fun pt => rectHit r pt.x pt.y t,
      circles := st.circles.filter fun c => !path.any fun pt => circleHit c pt.x pt.y t,
      simpleLines := st.simpleLines.filter fun l =>
        !path.any fun pt => lineHit l pt.x pt.y (max t (l.strokeWidth / 2)),
      arrows := st.arrows.filter fun a =>
        !path.any fun pt => lineHit a pt.x pt.y (max t (a.strokeWidth / 2)),
      triangles := st.triangles.filter fun tr => !path.any fun pt => triangleHit tr pt.x pt.y t }

/-! ## Selection queries (canvas.tsx lines 467-475, 519-556) -/

/-- `getSelectedBBox` (canvas.tsx lines 467-475).  The source indexes the
sequence without a bound check (an out-of-range index would throw); here it
yields `none`. -/
def getSelectedBBox (st : CanvasState) : Option BBox :=
  match st.selected with
  | none => none
  | some sel =>
    match sel.kind with
    | .rect => (st.rects.get? sel.idx).map getRectBBox
    | .circle => (st.circles.get? sel.idx).map getCircleBBox
    | .line => (st.simpleLines.get? sel.idx).map getLineBBox
    | .arrow => (st.arrows.get? sel.idx).map getLineBBox
    | .triangle => (st.triangles.get? sel.idx).map getTriBBox

/-- `handleUnderPointer` (canvas.tsx lines 519-535): test the four corner
handles of the selection bbox, of half-size `max(6/scale, 4/scale)`, in the
order 0 = top-left, 1 = top-right, 2 = bottom-right, 3 = bottom-left; return
the id of the first containing square. -/
def handleUnderPointer (st : CanvasState) (px py : ℚ) : Option ℕ :=
  match getSelectedBBox st with
  | none => none
  | some b =>
    let hs := max (6 / st.scale) (4 / st.scale)
    let handles : List (ℚ × ℚ × ℕ) :=
      [(b.x0, b.y0, 0), (b.x1, b.y0, 1), (b.x1, b.y1, 2), (b.x0, b.y1, 3)]
    (handles.find? fun h =>
      decide (h.1 - hs ≤ px) && decide (px ≤ h.1 + hs) &&
      decide (h.2.1 - hs ≤ py) && decide (py ≤ h.2.1 + hs)).map fun h => h.2.2

/-- The index returned by a loop `for (i = length - 1; i >= 0; i--) if (p arr[i]) return i`:
the greatest index whose element satisfies `p`. -/
def lastHitIdx (p : α → Bool) : List α → Option ℕ
  | [] => none
  | a :: as =>
    match lastHitIdx p as with
    | some j => some (j + 1)
    | none => if p a then some 0 else none

/-- The freehand hit predicate of `shapeUnderPointer` (canvas.tsx line 540). -/
def penHitPred (st : CanvasState) (px py : ℚ) (l : LineItem) : Bool :=
  polylineHit l.points px py (max (4 / st.scale) (l.strokeWidth / 2))

/-- The triangle hit predicate of `shapeUnderPointer` (canvas.tsx line 546). -/
def triHitPred (st : CanvasState) (px py : ℚ) (t : TriangleItem) : Bool :=
  triangleHit t px py (6 / st.scale)

/-- The arrow hit predicate of `shapeUnderPointer` (canvas.tsx line 548). -/
def arrowHitPred (st : CanvasState) (px py : ℚ) (a : ArrowItem) : Bool :=
  lineHit a px py (6 / st.scale)

/-- The simple-line hit predicate of `shapeUnderPointer` (canvas.tsx line 550). -/
def lineHitPred (st : CanvasState) (px py : ℚ) (l : SimpleLineItem) : Bool :=
  lineHit l px py (6 / st.scale)

/-- The circle hit predicate of `shapeUnderPointer` (canvas.tsx line 552). -/
def circleHitPred (st : CanvasState) (px py : ℚ) (c : CircleItem) : Bool :=
  circleHit c px py (6 / st.scale)

/-- The rectangle hit predicate of `shapeUnderPointer` (canvas.tsx line 554). -/
def rectHitPred (st : CanvasState) (px py : ℚ) (r : RectItem) : Bool :=
  rectHit r px py (6 / st.scale)

/-- `shapeUnderPointer` (canvas.tsx lines 537-556): scan freehand strokes,
then triangles, arrows, simple lines, circles, rectangles — each from the last
inserted down to the first — and return the first hit. -/
def shapeUnderPointer (st : CanvasState) (px py : ℚ) : Option (HitKind × ℕ) :=
  match lastHitIdx (penHitPred st px py) st.lines with
  | some i => some (.pen, i)
  | none =>
  match lastHitIdx (triHitPred st px py) st.triangles with
  | some i => some (.triangle, i)
  | none =>
  match lastHitIdx (arrowHitPred st px py) st.arrows with
  | some i => some (.arrow, i)
  | none =>
  match lastHitIdx (lineHitPred st px py) st.simpleLines with
  | some i => some (.line, i)
  | none =>
  match lastHitIdx (circleHitPred st px py) st.circles with
  | some i => some (.circle, i)
  | none =>
  match lastHitIdx (rectHitPred st px py) st.rects with
  | some i => some (.rect, i)
  | none => none

/-- `i` is the index a last-to-first scan of `l` with predicate `p` returns:
the element at `i` hits and no element after it does. -/
def topmostAt (p : α → Bool) (l : List α) (i : ℕ) : Prop :=
  ∃ h : i < l.length, p (l.get ⟨i, h⟩) = true ∧
    ∀ j, ∀ hj : j < l.length, i < j → p (l.get ⟨j, hj⟩) = false

/-- No element of `l` passes the hit predicate `p`. -/
def noHit (p : α → Bool) (l : List α) : Prop :=
  ∀ a ∈ l, p a = false

/-! ## Pointer handlers (canvas.tsx lines 894-1209) -/

/-- The world position of a pointer event (`getWorldPoint(e.clientX, e.clientY)`). -/
def downPos (cfg : Config) (st : CanvasState) (client : Pt) : Pt :=
  getWorldPoint cfg.rectLeft cfg.rectTop st.offset st.scale client.x client.y

/-- The baseline copy taken at the start of a select interaction
(`{...rects[idx]}` etc., canvas.tsx lines 916-925 and 936-945). -/
def originalOf (st : CanvasState) (k : SelKind) (i : ℕ) : Option Orig :=
  match k with
  | .rect => (st.rects.get? i).map .ofRect
  | .circle => (st.circles.get? i).map .ofCircle
  | .line => (st.simpleLines.get? i).map .ofLine
  | .arrow => (st.arrows.get? i).map .ofArrow
  | .triangle => (st.triangles.get? i).map .ofTriangle

/-- `onPointerDown` (canvas.tsx lines 894-978): pan starts panning; select
either starts resizing (selection present and a handle hit), starts moving
(a non-freehand shape hit, after pushing a snapshot), or clears the
selection; every other tool except laser pushes a snapshot and then begins
its gesture. -/
def onPointerDown (cfg : Config) (now : ℚ) (st : CanvasState) (client : Pt) :
    CanvasState :=
  if cfg.tool = .pan then { st with isPanning := true, panLast := some client }
  else
    let pos := downPos cfg st client
    if cfg.tool = .select then
      let hit := if st.selected.isSome then handleUnderPointer st pos.x pos.y else none
      match st.selected, hit with
      | some sel, some hid =>
        let st1 := pushHistory st
        { st1 with
          interaction := some ⟨.resizing, some hid, pos, originalOf st sel.kind sel.idx⟩ }
      | _, _ =>
        match shapeUnderPointer st pos.x pos.y with
        | some (.pen, _) => { st with selected := none, interaction := none }
        | some (.rect, i) =>
          let st1 := pushHistory st
          { st1 with
            selected := some ⟨SelKind.rect, i⟩,
            interaction := some ⟨.moving, none, pos, originalOf st SelKind.rect i⟩ }
        | some (.circle, i) =>
          let st1 := pushHistory st
          { st1 with
            selected := some ⟨SelKind.circle, i⟩,
            interaction := some ⟨.moving, none, pos, originalOf st SelKind.circle i⟩ }
        | some (.line, i) =>
          let st1 := pushHistory st
          { st1 with
            selected := some ⟨SelKind.line, i⟩,
            interaction := some ⟨.moving, none, pos, originalOf st SelKind.line i⟩ }
        | some (.arrow, i) =>
          let st1 := pushHistory st
          { st1 with
            selected := some ⟨SelKind.arrow, i⟩,
            interaction := some ⟨.moving, none, pos, originalOf st SelKind.arrow i⟩ }
        | some (.triangle, i) =>
          let st1 := pushHistory st
          { st1 with
            selected := some ⟨SelKind.triangle, i⟩,
            interaction := some ⟨.moving, none, pos, originalOf st SelKind.triangle i⟩ }
        | none => { st with selected := none, interaction := none }
    else
      let st1 := if cfg.tool ≠ .laser then pushHistory st else st
      if cfg.tool = .eraser then { st1 with erasingPath := [pos], drawing := true }
      else if cfg.tool = .laser then
        { st1 with laser := st1.laser ++ [(pos, now)], drawing := true }
      else startDrawing cfg now st1 pos

/-- The moving-mode writes of `onPointerMove` (canvas.tsx lines 999-1045):
apply the total displacement since pointer-down to the baseline copy and
write it back at the selected index (a kind/baseline mismatch, impossible in
the modelled flows, writes nothing). -/
def applyMove (st : CanvasState) (sel : Selected) (orig : Option Orig) (dx dy : ℚ) :
    CanvasState :=
  match sel.kind, orig with
  | .rect, some (.ofRect o) =>
    { st with rects := st.rects.set sel.idx { o with x := o.x + dx, y := o.y + dy } }
  | .circle, some (.ofCircle o) =>
    { st with circles := st.circles.set sel.idx { o with x := o.x + dx, y := o.y + dy } }
  | .line, some (.ofLine o) =>
    { st with simpleLines := st.simpleLines.set sel.idx { o with x1 := o.x1 + dx, y1 := o.y1 + dy, x2 := o.x2 + dx, y2 := o.y2 + dy } }
  | .arrow, some (.ofArrow o) =>
    { st with arrows := st.arrows.set sel.idx { o with x1 := o.x1 + dx, y1 := o.y1 + dy, x2 := o.x2 + dx, y2 := o.y2 + dy } }
  | .triangle, some (.ofTriangle o) =>
    { st with triangles := st.triangles.set sel.idx { o with x1 := o.x1 + dx, y1 := o.y1 + dy, x2 := o.x2 + dx, y2 := o.y2 + dy, x3 := o.x3 + dx, y3 := o.y3 + dy } }
  | _, _ => st

/-- The resizing-mode writes of `onPointerMove` (canvas.tsx lines 1047-1128).
`hyp` models the `Math.hypot` of the circle branch (`max(1, hypot(..))`). -/
def applyResize (hyp : ℚ → ℚ → ℚ) (st : CanvasState) (sel : Selected)
    (orig : Option Orig) (handle : ℕ) (start pos : Pt) (dx dy : ℚ) : CanvasState :=
  match sel.kind, orig with
  | .rect, some (.ofRect o) =>
    { st with rects := st.rects.set sel.idx (resizeRect o handle dx dy) }
  | .circle, some (.ofCircle o) =>
    { st with circles := st.circles.set sel.idx { o with radius := max 1 (hyp (pos.x - o.x) (pos.y - o.y)) } }
  | .line, some (.ofLine o) =>
    { st with simpleLines := st.simpleLines.set sel.idx (resizeLine o handle dx dy) }
  | .arrow, some (.ofArrow o) =>
    { st with arrows := st.arrows.set sel.idx (resizeLine o handle dx dy) }
  | .triangle, some (.ofTriangle o) =>
    { st with triangles := st.triangles.set sel.idx (resizeTriangle o start dx dy) }
  | _, _ => st

/-- The select-tool branch of `onPointerMove` (canvas.tsx lines 994-1131):
`some` means the handler returned inside this branch, `none` that control
falls through to the later branches (as it does when resizing with a null
handle). -/
def selectMove (cfg : Config) (hyp : ℚ → ℚ → ℚ) (st : CanvasState) (pos : Pt) :
    Option CanvasState :=
  match cfg.tool, st.interaction, st.selected with
  | .select, some ia, some sel =>
    let dx := pos.x - ia.start.x
    let dy := pos.y - ia.start.y
    match ia.mode with
    | .moving => some (applyMove st sel ia.original dx dy)
    | .resizing =>
      match ia.handle with
      | some hd => some (applyResize hyp st sel ia.original hd ia.start pos dx dy)
      | none => none
  | _, _, _ => none

/-- The laser branch of `onPointerMove` (canvas.tsx lines 1133-1143):
throttled sampling (`hypot > 0.5/scale`, encoded via squares:
`sqrt d2 > c  <->  c < 0 \/ c ^ 2 < d2`), with the oldest 200 samples dropped
once the buffer exceeds 1200. -/
def laserMove (now : ℚ) (st : CanvasState) (pos : Pt) : CanvasState :=
  let c := 0.5 / st.scale
  let addPoint :=
    match st.laser.getLast? with
    | none => true
    | some last => decide (c < 0) || decide (c ^ 2 < dist2 pos last.1)
  if addPoint then
    let l1 := st.laser ++ [(pos, now)]
    { st with laser := if 1200 < l1.length then l1.drop 200 else l1 }
  else st

/-- One iteration of the eraser interpolation loop (canvas.tsx lines
1156-1162): push the interpolated point and erase along the tiny segment from
the previous point (`[ep[len-4], ep[len-3], ix, iy]`). -/
def eraserStep (sw lx ly dx dy : ℚ) (steps : ℕ) (acc : CanvasState × Pt) (i : ℕ) :
    CanvasState × Pt :=
  let p : Pt := ⟨lx + dx * i / steps, ly + dy * i / steps⟩
  let st1 := { acc.1 with erasingPath := acc.1.erasingPath ++ [p] }
  (applyEraserDeletion st1 [acc.2, p] sw, p)

/-- The eraser branch of `onPointerMove` (canvas.tsx lines 1145-1167):
interpolate from the last path point in sub-steps of
`max(0.8, strokeWidth * 0.4)` world units (`hyp` models the `Math.hypot`
giving the segment length) and apply the deletion after each sub-step. -/
def eraserMove (hyp : ℚ → ℚ → ℚ) (sw : ℚ) (st : CanvasState) (pos : Pt) : CanvasState :=
  match st.erasingPath.getLast? with
  | some last =>
    let dx := pos.x - last.x
    let dy := pos.y - last.y
    let step := max 0.8 (sw * 0.4)
    let steps : ℕ := max 1 (Int.toNat ⌊hyp dx dy / step⌋)
    ((List.range' 1 steps).foldl (eraserStep sw last.x last.y dx dy steps) (st, last)).1
  | none => { st with erasingPath := st.erasingPath ++ [pos] }

/-- `onPointerMove` (canvas.tsx lines 980-1175). -/
def onPointerMove (cfg : Config) (hyp : ℚ → ℚ → ℚ) (now : ℚ) (st : CanvasState)
    (client : Pt) : CanvasState :=
  match cfg.tool, st.isPanning, st.panLast with
  | .pan, true, some last =>
    { st with
      offset := ⟨st.offset.x + (client.x - last.x), st.offset.y + (client.y - last.y)⟩,
      panLast := some client }
  | _, _, _ =>
    let pos := downPos cfg st client
    match selectMove cfg hyp st pos with
    | some st1 => st1
    | none =>
      if cfg.tool = .laser ∧ st.drawing = true then laserMove now st pos
      else if cfg.tool = .eraser ∧ st.drawing = true then eraserMove hyp cfg.strokeWidth st pos
      else if st.drawing = true ∨ st.draft.isSome then updateDrawing cfg hyp st pos
      else st

/-- `onPointerUp` (canvas.tsx lines 1177-1201). -/
def onPointerUp (cfg : Config) (st : CanvasState) : CanvasState :=
  match cfg.tool with
  | .pan => { st with isPanning := false, panLast := none }
  | .select => { st with interaction := none }
  | .laser => { st with drawing := false }
  | _ => endDrawing cfg st


/-- The pointer-down conditions under which a scene-mutating gesture begins
and a history snapshot is pushed (canvas.tsx lines 907-957): every tool except
pan and laser, where for select either a resize starts (a selection exists and
a corner handle is hit) or a move starts (a non-freehand shape is hit). -/
def gestureBegins (cfg : Config) (st : CanvasState) (client : Pt) : Bool :=
  match cfg.tool with
  | .pan => false
  | .laser => false
  | .select =>
    let pos := downPos cfg st client
    (st.selected.isSome && (handleUnderPointer st pos.x pos.y).isSome) ||
      (match shapeUnderPointer st pos.x pos.y with
       | some hit => decide (hit.1 ≠ HitKind.pen)
       | none => false)
  | _ => true

/-! ## Concrete states used by witnesses -/

/-- A pen-tool configuration used by witnesses. -/
def penCfg : Config :=
  ⟨.pen, "c", 3, .round, 0, 0⟩

/-- The component's initial state: scale 1, zero offset, empty scene. -/
def emptyState : CanvasState :=
  ⟨1, ⟨0, 0⟩, [], [], [], [], [], [], none, none, none, false, [], [], [], false, none⟩

/-- A snapshot holding a single distinguishing rectangle. -/
def snapA (n : ℚ) : Snapshot :=
  ⟨[], [⟨n, 0, 1, 1, "c", 1, false⟩], [], [], [], []⟩

/-- 150 pairwise distinct snapshots, in push order. -/
def pushes150 : List Snapshot :=
  (List.range 150).map fun n : ℕ => snapA (n : ℚ)

/-- A freehand stroke through the origin, used by witnesses. -/
def witLine : LineItem :=
  ⟨.pen, [⟨0, 0⟩, ⟨1, 0⟩], "c", 1, .round⟩

/-- A rectangle whose border passes through the origin, used by witnesses. -/
def witRect : RectItem :=
  ⟨0, 0, 1, 1, "c", 1, false⟩

/-- A scene with an overlapping freehand stroke and rectangle at the origin. -/
def overlapState : CanvasState :=
  { emptyState with lines := [witLine], rects := [witRect] }

/-! # Theorems -/

lemma handleWheel_scale_pos (rectLeft rectTop : ℚ) (scale : ℚ) (offset : Pt)
    (deltaY clientX clientY : ℚ) :
    0 < (handleWheel rectLeft rectTop scale offset deltaY clientX clientY).1 := by
  unfold handleWheel
  have h05 : (0:ℚ) < 0.5 := by norm_num
  exact lt_min (by norm_num) (lt_of_lt_of_le h05 (le_max_left _ _))

/-- C2: for every wheel zoom event at a screen point and every starting
viewport, the world point under the pointer computed with the new scale and
offset equals the world point computed with the old scale and offset (exactly,
in this rational model), including when the new scale is clamped to [0.5, 3]. -/
theorem wheel_zoom_preserves_pointer_world_point
    (rectLeft rectTop : ℚ) (scale : ℚ) (offset : Pt) (deltaY clientX clientY : ℚ) :
    getWorldPoint rectLeft rectTop
        (handleWheel rectLeft rectTop scale offset deltaY clientX clientY).2
        (handleWheel rectLeft rectTop scale offset deltaY clientX clientY).1
        clientX clientY
      = getWorldPoint rectLeft rectTop offset scale clientX clientY := by
  have hpos := handleWheel_scale_pos rectLeft rectTop scale offset deltaY clientX clientY
  have hne : (handleWheel rectLeft rectTop scale offset deltaY clientX clientY).1 ≠ 0 :=
    ne_of_gt hpos
  unfold handleWheel at hne hpos ⊢
  unfold getWorldPoint
  simp only at hne hpos ⊢
  rw [Pt.mk.injEq]
  constructor
  · have : clientX - rectLeft -
        (clientX - rectLeft - (clientX - rectLeft - offset.x) / scale *
          (3 ⊓ (0.5 ⊔ if 0 < if 0 < deltaY then (-1:ℤ) else 1 then scale * 1.05 else scale / 1.05)))
        = (clientX - rectLeft - offset.x) / scale *
          (3 ⊓ (0.5 ⊔ if 0 < if 0 < deltaY then (-1:ℤ) else 1 then scale * 1.05 else scale / 1.05)) := by
      ring
    rw [this, mul_div_cancel_right₀ _ hne]
  · have : clientY - rectTop -
        (clientY - rectTop - (clientY - rectTop - offset.y) / scale *
          (3 ⊓ (0.5 ⊔ if 0 < if 0 < deltaY then (-1:ℤ) else 1 then scale * 1.05 else scale / 1.05)))
        = (clientY - rectTop - offset.y) / scale *
          (3 ⊓ (0.5 ⊔ if 0 < if 0 < deltaY then (-1:ℤ) else 1 then scale * 1.05 else scale / 1.05)) := by
      ring
    rw [this, mul_div_cancel_right₀ _ hne]


/-- C5, counterexample: starting a triangle draft at (0,0) and moving the
pointer to (1,1), the claim predicts the third vertex (2*0-1, 2*0-1) = (-1,-1)
(the mirror of vertex 2 across vertex 1), but the code produces (-1, 1): the
y-coordinate is not mirrored. -/
theorem triangle_draft_mirror_cex :
    (updateDrawing ⟨Tool.triangle, "c", 3, BrushStyle.round, 0, 0⟩ (fun _ _ => 0)
        { emptyState with draft := some (.triangle 0 0 0 0 0 0) } ⟨1, 1⟩).draft
      ≠ some (DraftShape.triangle 0 0 1 1 (2 * 0 - 1) (2 * 0 - 1)) := by
  norm_num [updateDrawing, updateDraft, emptyState, DraftShape.triangle.injEq]

/-- C5, amended: during a triangle draft gesture anchored at vertex 1 =
(x1, y1), after every pointer-move to (x2, y2) the draft's third vertex is the
mirror of vertex 2 across the vertical line through vertex 1:
(x3, y3) = (2*x1 - x2, y2). -/
theorem triangle_draft_mirror_amended (co : String) (sw : ℚ) (bs : BrushStyle)
    (rl rt : ℚ) (hyp : ℚ → ℚ → ℚ) (st : CanvasState) (x1 y1 a b c e : ℚ) (pos : Pt) :
    (updateDrawing ⟨Tool.triangle, co, sw, bs, rl, rt⟩ hyp
        { st with draft := some (.triangle x1 y1 a b c e) } pos).draft
      = some (.triangle x1 y1 pos.x pos.y (2 * x1 - pos.x) pos.y) := by
  simp [updateDrawing, updateDraft]
  ring

/-- C7, counterexample: for the line from (0,10) to (5,0) the selection bbox
is [0,5] x [0,10], so handle 0 sits at (0,0); the endpoint nearest that handle
is (x2,y2) = (5,0) (squared distance 25 versus 100), yet dragging handle 0 by
(1,1) moves (x1,y1) and leaves (x2,y2) unchanged. -/
theorem line_resize_nearest_cex :
    dist2 ⟨(getLineBBox ⟨0, 10, 5, 0, "c", 1, false⟩).x0,
           (getLineBBox ⟨0, 10, 5, 0, "c", 1, false⟩).y0⟩ ⟨5, 0⟩
      < dist2 ⟨(getLineBBox ⟨0, 10, 5, 0, "c", 1, false⟩).x0,
               (getLineBBox ⟨0, 10, 5, 0, "c", 1, false⟩).y0⟩ ⟨0, 10⟩
    ∧ resizeLine ⟨0, 10, 5, 0, "c", 1, false⟩ 0 1 1 = ⟨1, 11, 5, 0, "c", 1, false⟩ := by
  constructor
  · norm_num [dist2, getLineBBox]
  · norm_num [resizeLine, SimpleLineItem.mk.injEq]

/-- C7, amended: in a line/arrow resize, handles 0 and 3 (the left-side
handles of the bounding box) move the (x1,y1) endpoint by the pointer
displacement, and every other handle moves (x2,y2); the other endpoint is
unchanged.  The endpoint choice depends only on the handle id, not on which
endpoint is nearest the handle. -/
theorem line_resize_moves_endpoint_by_handle (o : SimpleLineItem) (handle : ℕ) (dx dy : ℚ) :
    (handle = 0 ∨ handle = 3 →
      resizeLine o handle dx dy = { o with x1 := o.x1 + dx, y1 := o.y1 + dy }) ∧
    (handle ≠ 0 → handle ≠ 3 →
      resizeLine o handle dx dy = { o with x2 := o.x2 + dx, y2 := o.y2 + dy }) := by
  constructor
  · intro h
    simp [resizeLine, h]
  · intro h0 h3
    simp [resizeLine, h0, h3]

theorem line_resize_moves_endpoint_by_handle_witness :
    resizeLine ⟨0, 10, 5, 0, "c", 1, false⟩ 3 2 2 = ⟨0 + 2, 10 + 2, 5, 0, "c", 1, false⟩ :=
  (line_resize_moves_endpoint_by_handle ⟨0, 10, 5, 0, "c", 1, false⟩ 3 2 2).1 (Or.inr rfl)

/-- C8: for every rectangle resize step with original rectangle `o`, handle id
in {0,1,2,3} and pointer displacement (dx,dy), the written rectangle has
width >= 1 and height >= 1: the clamps `min(x1-1, x0+dx)` / `max(x0+1, x1+dx)`
(and the y-forms) keep opposite edges from crossing, so width/height never
flip sign relative to the normalized bounding box of `o`. -/
theorem rect_resize_min_size (o : RectItem) (handle : ℕ) (dx dy : ℚ)
    (h : handle < 4) :
    1 ≤ (resizeRect o handle dx dy).width ∧ 1 ≤ (resizeRect o handle dx dy).height := by
  have key : ∀ X Y : ℚ, 1 ≤ X - min (X - 1) Y := by
    intro X Y
    have := min_le_left (X - 1) Y
    linarith
  have key2 : ∀ X Y : ℚ, 1 ≤ max (X + 1) Y - X := by
    intro X Y
    have := le_max_left (X + 1) Y
    linarith
  have h4 : handle = 0 ∨ handle = 1 ∨ handle = 2 ∨ handle = 3 := by omega
  obtain rfl | rfl | rfl | rfl := h4
  · exact ⟨key _ _, key _ _⟩
  · exact ⟨key2 _ _, key _ _⟩
  · exact ⟨key2 _ _, key2 _ _⟩
  · exact ⟨key _ _, key2 _ _⟩

theorem rect_resize_min_size_witness :
    1 ≤ (resizeRect ⟨0, 0, 5, 5, "c", 1, false⟩ 0 10 10).width ∧
    1 ≤ (resizeRect ⟨0, 0, 5, 5, "c", 1, false⟩ 0 10 10).height :=
  rect_resize_min_size ⟨0, 0, 5, 5, "c", 1, false⟩ 0 10 10 (by norm_num)

lemma foldl_pushSnap (ss : List Snapshot) :
    ∀ h : List Snapshot, h.length ≤ 100 →
      ss.foldl pushSnap h = (h ++ ss).drop (h.length + ss.length - 100) := by
  induction ss with
  | nil =>
    intro h hh
    simp [Nat.sub_eq_zero_of_le hh]
  | cons s ss ih =>
    intro h hh
    rw [List.foldl_cons]
    by_cases hc : h.length = 100
    · obtain ⟨hd, tl, rfl⟩ : ∃ hd tl, h = hd :: tl := by
        cases h with
        | nil => simp at hc
        | cons hd tl => exact ⟨hd, tl, rfl⟩
      have hpush : pushSnap (hd :: tl) s = tl ++ [s] := by
        unfold pushSnap MAX_HISTORY
        simp only [List.length_cons] at hc
        rw [if_pos (by simp [List.length_append]; omega)]
        rfl
      rw [hpush, ih (tl ++ [s]) (by simp only [List.length_cons] at hc; simp [List.length_append]; omega)]
      simp only [List.length_cons] at hc
      have h1 : (tl ++ [s]).length + ss.length - 100 = ss.length := by
        simp [List.length_append]
        omega
      have h2 : (hd :: tl).length + (s :: ss).length - 100 = ss.length + 1 := by
        simp only [List.length_cons]
        omega
      rw [h1, h2, List.append_assoc, List.singleton_append, List.cons_append,
        List.drop_succ_cons]
    · have hlt : h.length < 100 := lt_of_le_of_ne hh hc
      have hpush : pushSnap h s = h ++ [s] := by
        unfold pushSnap MAX_HISTORY
        rw [if_neg (by simp; omega)]
      rw [hpush, ih (h ++ [s]) (by simp; omega)]
      have h3 : (h ++ [s]).length + ss.length - 100 = h.length + (s :: ss).length - 100 := by
        simp only [List.length_append, List.length_cons, List.length_nil]
        omega
      rw [h3, List.append_assoc, List.singleton_append]

/-- C9: pushing 150 snapshots (in particular, pairwise distinct ones) onto an
empty history stack leaves exactly 100, namely the snapshots of the 100 most
recent pushes in push order — the 50 oldest are evicted at the bottom. -/
theorem history_bound_150_pushes (ss : List Snapshot) (h : ss.length = 150) :
    ss.foldl pushSnap [] = ss.drop 50 ∧ (ss.foldl pushSnap []).length = 100 := by
  have heq := foldl_pushSnap ss [] (by simp)
  simp only [List.nil_append, List.length_nil, Nat.zero_add] at heq
  rw [h] at heq
  norm_num at heq
  refine ⟨heq, ?_⟩
  rw [heq, List.length_drop, h]

theorem history_bound_150_pushes_witness :
    pushes150.foldl pushSnap [] = pushes150.drop 50 ∧
    (pushes150.foldl pushSnap []).length = 100 :=
  history_bound_150_pushes pushes150 (by unfold pushes150; rw [List.length_map, List.length_range])

lemma zip_self_map (f : α → β) (l : List α) :
    l.zip (l.map f) = l.map fun a => (a, f a) := by
  induction l with
  | nil => rfl
  | cons a as ih => simp [ih]

lemma head_dropWhile_eq_false (f : α → Bool) (l : List α) (b : α) (t : List α)
    (h : l.dropWhile f = b :: t) : f b = false := by
  induction l with
  | nil => simp at h
  | cons a as ih =>
    by_cases ha : f a = true
    · rw [List.dropWhile_cons_of_pos ha] at h
      exact ih h
    · rw [List.dropWhile_cons_of_neg ha] at h
      cases h
      simpa using ha

lemma runsBy_tail_dropWhile (f : α → Bool) (l : List α) :
    runsBy f (l.dropWhile f) = runsBy f (l.dropWhile f).tail := by
  cases h : l.dropWhile f with
  | nil => rfl
  | cons b t =>
    have hb := head_dropWhile_eq_false f l b t h
    simp [runsBy, hb]

lemma filter_runsBy_eq (f : α → Bool) (l : List α) :
    (runsBy f l).filter (fun s => decide (2 ≤ s.length)) =
      (if 2 ≤ (l.takeWhile f).length then [l.takeWhile f] else []) ++
        (runsBy f (l.dropWhile f).tail).filter (fun s => decide (2 ≤ s.length)) := by
  cases l with
  | nil => simp [runsBy]
  | cons r rs =>
    by_cases hr : f r = true
    · rw [List.takeWhile_cons_of_pos hr, List.dropWhile_cons_of_pos hr]
      have hruns : runsBy f (r :: rs) =
          (r :: rs.takeWhile f) :: runsBy f (rs.dropWhile f) := by
        simp [runsBy, hr]
      rw [hruns, ← runsBy_tail_dropWhile f rs]
      by_cases hlen : 2 ≤ (r :: rs.takeWhile f).length
      · rw [if_pos hlen, List.filter_cons_of_pos (by simpa using hlen)]
        rfl
      · rw [if_neg hlen, List.filter_cons_of_neg (by simpa using hlen)]
        rfl
    · rw [List.takeWhile_cons_of_neg hr, List.dropWhile_cons_of_neg hr]
      have hruns : runsBy f (r :: rs) = runsBy f rs := by
        simp [runsBy, hr]
      rw [hruns]
      simp

lemma buildSegs_eq (f : Pt → Bool) (l : List Pt) :
    ∀ cur : List Pt,
      buildSegs (l.map fun p => (p, f p)) cur =
        (if 2 ≤ (cur ++ l.takeWhile f).length then [cur ++ l.takeWhile f] else []) ++
          (runsBy f (l.dropWhile f).tail).filter (fun s => decide (2 ≤ s.length)) := by
  induction l with
  | nil =>
    intro cur
    simp [buildSegs, runsBy]
  | cons p rest ih =>
    intro cur
    by_cases hp : f p = true
    · rw [List.takeWhile_cons_of_pos hp, List.dropWhile_cons_of_pos hp]
      have : buildSegs ((p :: rest).map fun q => (q, f q)) cur
          = buildSegs (rest.map fun q => (q, f q)) (cur ++ [p]) := by
        simp [buildSegs, hp]
      rw [this, ih (cur ++ [p]), List.append_assoc, List.singleton_append]
    · rw [List.takeWhile_cons_of_neg hp, List.dropWhile_cons_of_neg hp]
      have : buildSegs ((p :: rest).map fun q => (q, f q)) cur
          = (if 2 ≤ cur.length then [cur] else []) ++ buildSegs (rest.map fun q => (q, f q)) [] := by
        simp [buildSegs, hp]
      rw [this, ih [], List.nil_append, List.tail_cons, List.append_nil,
        ← filter_runsBy_eq f rest]

lemma filter_min2_idem (L : List (List Pt)) :
    (L.filter fun s => decide (2 ≤ s.length)).filter (fun s => decide (2 ≤ s.length))
      = L.filter fun s => decide (2 ≤ s.length) := by
  induction L with
  | nil => rfl
  | cons a as ih =>
    by_cases h : 2 ≤ a.length
    · rw [List.filter_cons_of_pos (by simpa using h),
        List.filter_cons_of_pos (by simpa using h), ih]
    · rw [List.filter_cons_of_neg (by simpa using h), ih]

/-- The segmenter loop computes exactly the spec's filtered maximal runs, for
every stroke of at least 2 points. -/
lemma split_eq_filter_runs (points path : List Pt) (radius : ℚ)
    (h2 : 2 ≤ points.length) :
    splitPolylineByEraser points path radius = segmenterSpec points path radius := by
  unfold splitPolylineByEraser segmenterSpec
  rw [if_neg (by omega)]
  simp only
  rw [zip_self_map, buildSegs_eq, List.nil_append, ← filter_runsBy_eq]
  exact filter_min2_idem _

lemma runsBy_eq_nil (f : α → Bool) (l : List α) (h : ∀ a ∈ l, f a = false) :
    runsBy f l = [] := by
  induction l with
  | nil => simp [runsBy]
  | cons a as ih =>
    have ha := h a (List.mem_cons_self a as)
    simp only [runsBy, ha]
    exact ih fun b hb => h b (List.mem_cons_of_mem a hb)

/-- C4, counterexample: the claim quantifies over every point sequence, but a
1-point stroke is returned unchanged by the `points.length < 4` guard, even
when its only point is erased — one output stroke instead of zero. -/
theorem splitPolyline_single_point_cex :
    nearEraser [⟨0, 0⟩] 1 ⟨0, 0⟩ = true ∧
    splitPolylineByEraser [⟨0, 0⟩] [⟨0, 0⟩] 1 = [[⟨0, 0⟩]] := by
  constructor
  · norm_num [nearEraser, withinRadius, sqrtLe, dist2]
  · norm_num [splitPolylineByEraser]

/-- C4, amended: for every stroke of at least 2 points, eraser path and
radius, the segmenter marks a stroke point erased exactly when some
eraser-path point lies within the radius of it (`nearEraser`), partitions the
sequence into maximal runs of consecutive non-erased points (`runsBy`),
returns one stroke per run of at least 2 points in original order, drops runs
of length 1, and returns zero strokes when every point is erased.  Strokes of
fewer than 2 points are returned unchanged, without consulting the eraser. -/
theorem splitPolyline_characterization (points path : List Pt) (radius : ℚ) :
    (2 ≤ points.length →
      splitPolylineByEraser points path radius = segmenterSpec points path radius) ∧
    (2 ≤ points.length → (∀ p ∈ points, nearEraser path radius p = true) →
      splitPolylineByEraser points path radius = []) ∧
    (points.length < 2 → splitPolylineByEraser points path radius = [points]) := by
  refine ⟨fun h2 => split_eq_filter_runs points path radius h2, fun h2 hall => ?_, fun hlt => ?_⟩
  · rw [split_eq_filter_runs points path radius h2]
    unfold segmenterSpec
    rw [runsBy_eq_nil _ _ (by intro p hp; simp [hall p hp])]
    rfl
  · unfold splitPolylineByEraser
    rw [if_pos hlt]

theorem splitPolyline_characterization_witness :
    splitPolylineByEraser [⟨0, 0⟩, ⟨3, 0⟩] [⟨100, 0⟩] 1
      = segmenterSpec [⟨0, 0⟩, ⟨3, 0⟩] [⟨100, 0⟩] 1 :=
  (splitPolyline_characterization [⟨0, 0⟩, ⟨3, 0⟩] [⟨100, 0⟩] 1).1 (by norm_num)

/-- C3, counterexample: the stroke (0,0)-(10,0)-(20,0) with eraser path
[(10,0)] and radius 4 (within the radius only of the middle point, and smaller
than half the segment length 5): the claim predicts exactly two output
strokes, but the two surviving runs have a single point each and are dropped,
so the segmenter returns zero strokes. -/
theorem eraser_midpoint_three_point_cex :
    withinRadius ⟨10, 0⟩ ⟨10, 0⟩ 4 = true ∧
    withinRadius ⟨0, 0⟩ ⟨10, 0⟩ 4 = false ∧
    withinRadius ⟨20, 0⟩ ⟨10, 0⟩ 4 = false ∧
    (4 : ℚ) < 10 / 2 ∧
    splitPolylineByEraser [⟨0, 0⟩, ⟨10, 0⟩, ⟨20, 0⟩] [⟨10, 0⟩] 4 = [] := by
  refine ⟨?_, ?_, ?_, by norm_num, ?_⟩
  · norm_num [withinRadius, sqrtLe, dist2]
  · norm_num [withinRadius, sqrtLe, dist2]
  · norm_num [withinRadius, sqrtLe, dist2]
  · norm_num [splitPolylineByEraser, buildSegs, nearEraser, withinRadius, sqrtLe, dist2]

/-- C3, amended: for a 3-point stroke whose middle point alone is erased, the
two surviving runs are singletons and are both dropped, so the segmenter
returns zero output strokes (not two); and for any eraser path within radius
of every point of a stroke with at least 2 points, it returns zero output
strokes. -/
theorem eraser_midpoint_three_point_amended (p1 p2 p3 : Pt) (path : List Pt)
    (radius : ℚ)
    (hmid : nearEraser path radius p2 = true)
    (hleft : nearEraser path radius p1 = false)
    (hright : nearEraser path radius p3 = false) :
    splitPolylineByEraser [p1, p2, p3] path radius = [] ∧
    (∀ points : List Pt, 2 ≤ points.length →
      (∀ p ∈ points, nearEraser path radius p = true) →
      splitPolylineByEraser points path radius = []) := by
  constructor
  · simp [splitPolylineByEraser, buildSegs, hmid, hleft, hright]
  · intro points hlen hall
    rw [split_eq_filter_runs points path radius hlen]
    unfold segmenterSpec
    rw [runsBy_eq_nil _ _ (by intro p hp; simp [hall p hp])]
    rfl

theorem eraser_midpoint_three_point_amended_witness :
    splitPolylineByEraser [⟨0, 0⟩, ⟨10, 0⟩, ⟨20, 0⟩] [⟨10, 0⟩] 4 = [] ∧
    (∀ points : List Pt, 2 ≤ points.length →
      (∀ p ∈ points, nearEraser [⟨10, 0⟩] 4 p = true) →
      splitPolylineByEraser points [⟨10, 0⟩] 4 = []) :=
  eraser_midpoint_three_point_amended ⟨0, 0⟩ ⟨10, 0⟩ ⟨20, 0⟩ [⟨10, 0⟩] 4
    (by norm_num [nearEraser, withinRadius, sqrtLe, dist2])
    (by norm_num [nearEraser, withinRadius, sqrtLe, dist2])
    (by norm_num [nearEraser, withinRadius, sqrtLe, dist2])

/-- C10: `undo()` on an empty history stack is a silent no-op (the whole state
is unchanged, so in particular the six shape sequences, the draft and the
selection are); on a non-empty stack it pops the most recent snapshot,
replaces the six shape sequences wholesale with it, and clears the draft, the
selection and the active interaction. -/
theorem undo_empty_noop_nonempty_restores (st : CanvasState) (h : List Snapshot)
    (snap : Snapshot) :
    (st.history = [] → undoStep st = st) ∧
    (st.history = h ++ [snap] →
      undoStep st = { st with
        lines := snap.lines, rects := snap.rects, circles := snap.circles,
        simpleLines := snap.simpleLines, arrows := snap.arrows, triangles := snap.triangles,
        history := h, draft := none, selected := none, interaction := none }) := by
  constructor
  · intro he
    simp [undoStep, he]
  · intro he
    unfold undoStep
    rw [he, List.getLast?_concat, List.dropLast_concat]

theorem undo_empty_noop_nonempty_restores_witness :
    undoStep emptyState = emptyState ∧
    undoStep { emptyState with history := [snapA 0] }
      = { emptyState with rects := (snapA 0).rects } := by
  constructor
  · exact (undo_empty_noop_nonempty_restores emptyState [] (snapA 0)).1 rfl
  · have h := (undo_empty_noop_nonempty_restores
      { emptyState with history := [snapA 0] } [] (snapA 0)).2 rfl
    rw [h]
    decide

lemma lastHitIdx_none_all (p : α → Bool) :
    ∀ l : List α, lastHitIdx p l = none → noHit p l := by
  intro l
  induction l with
  | nil => intro _ a ha; simp at ha
  | cons a as ih =>
    intro h
    simp only [lastHitIdx] at h
    cases hrec : lastHitIdx p as with
    | some j => rw [hrec] at h; simp at h
    | none =>
      rw [hrec] at h
      by_cases hpa : p a = true
      · rw [if_pos hpa] at h; simp at h
      · intro b hb
        rcases List.mem_cons.mp hb with rfl | hbs
        · simpa using hpa
        · exact ih hrec b hbs

lemma lastHitIdx_some_spec (p : α → Bool) :
    ∀ (l : List α) (i : ℕ), lastHitIdx p l = some i → topmostAt p l i := by
  intro l
  induction l with
  | nil => intro i h; simp [lastHitIdx] at h
  | cons a as ih =>
    intro i h
    simp only [lastHitIdx] at h
    cases hrec : lastHitIdx p as with
    | some j =>
      rw [hrec] at h
      obtain rfl : j + 1 = i := by simpa using h
      obtain ⟨hj, hpj, hafter⟩ := ih j hrec
      refine ⟨by simpa using Nat.succ_lt_succ hj, by simpa using hpj, ?_⟩
      intro k hk hgt
      cases k with
      | zero => omega
      | succ k' =>
        have hk' : k' < as.length := by simpa using hk
        have := hafter k' hk' (by omega)
        simpa using this
    | none =>
      rw [hrec] at h
      by_cases hpa : p a = true
      · rw [if_pos hpa] at h
        obtain rfl : 0 = i := by simpa using h
        refine ⟨by simp, by simpa using hpa, ?_⟩
        intro k hk hgt
        cases k with
        | zero => omega
        | succ k' =>
          have hk' : k' < as.length := by simpa using hk
          have := lastHitIdx_none_all p as hrec (as.get ⟨k', hk'⟩) (as.get_mem k' hk')
          simpa using this
      · rw [if_neg hpa] at h
        simp at h

lemma lastHitIdx_isSome_of_hit (p : α → Bool) :
    ∀ l : List α, (∃ a ∈ l, p a = true) → (lastHitIdx p l).isSome := by
  intro l
  induction l with
  | nil => rintro ⟨a, ha, _⟩; simp at ha
  | cons b bs ih =>
    rintro ⟨a, hab, hpa⟩
    simp only [lastHitIdx]
    cases hrec : lastHitIdx p bs with
    | some j => simp
    | none =>
      rcases List.mem_cons.mp hab with rfl | hbs
      · simp [hpa]
      · have := ih ⟨a, hbs, hpa⟩
        rw [hrec] at this
        simp at this

/-- C6: for every state and world point, `shapeUnderPointer` scans freehand
strokes first, then triangles, then arrows, then simple lines, then circles,
then rectangles, each kind from last-inserted to first-inserted, returning the
first hit: a result of kind k is the topmost hit of kind k and no kind scanned
before k has any hit; `none` means nothing hits; and whenever both a freehand
stroke and a rectangle pass their hit tests at the point, the result is the
freehand stroke. -/
theorem shapeUnderPointer_scan_priority (st : CanvasState) (px py : ℚ) :
    (∀ i, shapeUnderPointer st px py = some (.pen, i) →
      topmostAt (penHitPred st px py) st.lines i) ∧
    (∀ i, shapeUnderPointer st px py = some (.triangle, i) →
      noHit (penHitPred st px py) st.lines ∧
      topmostAt (triHitPred st px py) st.triangles i) ∧
    (∀ i, shapeUnderPointer st px py = some (.arrow, i) →
      noHit (penHitPred st px py) st.lines ∧
      noHit (triHitPred st px py) st.triangles ∧
      topmostAt (arrowHitPred st px py) st.arrows i) ∧
    (∀ i, shapeUnderPointer st px py = some (.line, i) →
      noHit (penHitPred st px py) st.lines ∧
      noHit (triHitPred st px py) st.triangles ∧
      noHit (arrowHitPred st px py) st.arrows ∧
      topmostAt (lineHitPred st px py) st.simpleLines i) ∧
    (∀ i, shapeUnderPointer st px py = some (.circle, i) →
      noHit (penHitPred st px py) st.lines ∧
      noHit (triHitPred st px py) st.triangles ∧
      noHit (arrowHitPred st px py) st.arrows ∧
      noHit (lineHitPred st px py) st.simpleLines ∧
      topmostAt (circleHitPred st px py) st.circles i) ∧
    (∀ i, shapeUnderPointer st px py = some (.rect, i) →
      noHit (penHitPred st px py) st.lines ∧
      noHit (triHitPred st px py) st.triangles ∧
      noHit (arrowHitPred st px py) st.arrows ∧
      noHit (lineHitPred st px py) st.simpleLines ∧
      noHit (circleHitPred st px py) st.circles ∧
      topmostAt (rectHitPred st px py) st.rects i) ∧
    (shapeUnderPointer st px py = none →
      noHit (penHitPred st px py) st.lines ∧
      noHit (triHitPred st px py) st.triangles ∧
      noHit (arrowHitPred st px py) st.arrows ∧
      noHit (lineHitPred st px py) st.simpleLines ∧
      noHit (circleHitPred st px py) st.circles ∧
      noHit (rectHitPred st px py) st.rects) ∧
    ((∃ l ∈ st.lines, penHitPred st px py l = true) →
      (∃ r ∈ st.rects, rectHitPred st px py r = true) →
      ∃ i, shapeUnderPointer st px py = some (.pen, i)) := by
  have hpen : (∃ l ∈ st.lines, penHitPred st px py l = true) →
      ∃ i, shapeUnderPointer st px py = some (.pen, i) := by
    intro hex
    have hsome := lastHitIdx_isSome_of_hit _ _ hex
    cases hL : lastHitIdx (penHitPred st px py) st.lines with
    | none =>
      rw [hL] at hsome
      simp at hsome
    | some i =>
      exact ⟨i, by simp [shapeUnderPointer, hL]⟩
  cases hL : lastHitIdx (penHitPred st px py) st.lines with
  | some i =>
    have hres : shapeUnderPointer st px py = some (.pen, i) := by
      simp [shapeUnderPointer, hL]
    refine ⟨?_, ?_, ?_, ?_, ?_, ?_, ?_, fun hex _ => hpen hex⟩
    all_goals first
      | (intro j hj
         rw [hres] at hj
         obtain rfl : i = j := by simpa using hj
         exact lastHitIdx_some_spec _ _ _ hL)
      | (intro j hj
         rw [hres] at hj
         simp at hj)
      | (intro h0
         rw [hres] at h0
         simp at h0)
  | none =>
    have hLn := lastHitIdx_none_all _ _ hL
    cases hT : lastHitIdx (triHitPred st px py) st.triangles with
    | some i =>
      have hres : shapeUnderPointer st px py = some (.triangle, i) := by
        simp [shapeUnderPointer, hL, hT]
      refine ⟨?_, ?_, ?_, ?_, ?_, ?_, ?_, fun hex _ => hpen hex⟩
      all_goals first
        | (intro j hj
           rw [hres] at hj
           obtain rfl : i = j := by simpa using hj
           exact ⟨hLn, lastHitIdx_some_spec _ _ _ hT⟩)
        | (intro j hj
           rw [hres] at hj
           simp at hj)
        | (intro h0
           rw [hres] at h0
           simp at h0)
    | none =>
      have hTn := lastHitIdx_none_all _ _ hT
      cases hA : lastHitIdx (arrowHitPred st px py) st.arrows with
      | some i =>
        have hres : shapeUnderPointer st px py = some (.arrow, i) := by
          simp [shapeUnderPointer, hL, hT, hA]
        refine ⟨?_, ?_, ?_, ?_, ?_, ?_, ?_, fun hex _ => hpen hex⟩
        all_goals first
          | (intro j hj
             rw [hres] at hj
             obtain rfl : i = j := by simpa using hj
             exact ⟨hLn, hTn, lastHitIdx_some_spec _ _ _ hA⟩)
          | (intro j hj
             rw [hres] at hj
             simp at hj)
          | (intro h0
             rw [hres] at h0
             simp at h0)
      | none =>
        have hAn := lastHitIdx_none_all _ _ hA
        cases hS : lastHitIdx (lineHitPred st px py) st.simpleLines with
        | some i =>
          have hres : shapeUnderPointer st px py = some (.line, i) := by
            simp [shapeUnderPointer, hL, hT, hA, hS]
          refine ⟨?_, ?_, ?_, ?_, ?_, ?_, ?_, fun hex _ => hpen hex⟩
          all_goals first
            | (intro j hj
               rw [hres] at hj
               obtain rfl : i = j := by simpa using hj
               exact ⟨hLn, hTn, hAn, lastHitIdx_some_spec _ _ _ hS⟩)
            | (intro j hj
               rw [hres] at hj
               simp at hj)
            | (intro h0
               rw [hres] at h0
               simp at h0)
        | none =>
          have hSn := lastHitIdx_none_all _ _ hS
          cases hC : lastHitIdx (circleHitPred st px py) st.circles with
          | some i =>
            have hres : shapeUnderPointer st px py = some (.circle, i) := by
              simp [shapeUnderPointer, hL, hT, hA, hS, hC]
            refine ⟨?_, ?_, ?_, ?_, ?_, ?_, ?_, fun hex _ => hpen hex⟩
            all_goals first
              | (intro j hj
                 rw [hres] at hj
                 obtain rfl : i = j := by simpa using hj
                 exact ⟨hLn, hTn, hAn, hSn, lastHitIdx_some_spec _ _ _ hC⟩)
              | (intro j hj
                 rw [hres] at hj
                 simp at hj)
              | (intro h0
                 rw [hres] at h0
                 simp at h0)
          | none =>
            have hCn := lastHitIdx_none_all _ _ hC
            cases hR : lastHitIdx (rectHitPred st px py) st.rects with
            | some i =>
              have hres : shapeUnderPointer st px py = some (.rect, i) := by
                simp [shapeUnderPointer, hL, hT, hA, hS, hC, hR]
              refine ⟨?_, ?_, ?_, ?_, ?_, ?_, ?_, fun hex _ => hpen hex⟩
              all_goals first
                | (intro j hj
                   rw [hres] at hj
                   obtain rfl : i = j := by simpa using hj
                   exact ⟨hLn, hTn, hAn, hSn, hCn, lastHitIdx_some_spec _ _ _ hR⟩)
                | (intro j hj
                   rw [hres] at hj
                   simp at hj)
                | (intro h0
                   rw [hres] at h0
                   simp at h0)
            | none =>
              have hRn := lastHitIdx_none_all _ _ hR
              have hres : shapeUnderPointer st px py = none := by
                simp [shapeUnderPointer, hL, hT, hA, hS, hC, hR]
              refine ⟨?_, ?_, ?_, ?_, ?_, ?_, fun _ => ⟨hLn, hTn, hAn, hSn, hCn, hRn⟩, fun hex _ => hpen hex⟩
              all_goals (intro j hj; rw [hres] at hj; simp at hj)

theorem shapeUnderPointer_scan_priority_witness :
    ∃ i, shapeUnderPointer overlapState 0 0 = some (.pen, i) :=
  (shapeUnderPointer_scan_priority overlapState 0 0).2.2.2.2.2.2.2
    ⟨witLine, by simp [overlapState, emptyState],
      by norm_num [penHitPred, witLine, overlapState, emptyState, polylineHit,
        polylineHitAux, segHit, sqrtLe, distPointToSeg2]⟩
    ⟨witRect, by simp [overlapState, emptyState],
      by norm_num [rectHitPred, witRect, overlapState, emptyState, rectHit,
        segHit, sqrtLe, distPointToSeg2]⟩

lemma applyEraserDeletion_history (st : CanvasState) (path : List Pt) (threshold : ℚ) :
    (applyEraserDeletion st path threshold).history = st.history := by
  unfold applyEraserDeletion
  split <;> rfl

lemma eraserStep_history (sw lx ly dx dy : ℚ) (steps : ℕ) (acc : CanvasState × Pt)
    (i : ℕ) : ((eraserStep sw lx ly dx dy steps acc i).1).history = acc.1.history := by
  unfold eraserStep
  rw [applyEraserDeletion_history]

lemma foldl_eraserStep_history (sw lx ly dx dy : ℚ) (steps : ℕ) :
    ∀ (l : List ℕ) (acc : CanvasState × Pt),
      ((l.foldl (eraserStep sw lx ly dx dy steps) acc).1).history = acc.1.history := by
  intro l
  induction l with
  | nil => intro acc; rfl
  | cons i is ih =>
    intro acc
    rw [List.foldl_cons, ih, eraserStep_history]

lemma eraserMove_history (hyp : ℚ → ℚ → ℚ) (sw : ℚ) (st : CanvasState) (pos : Pt) :
    (eraserMove hyp sw st pos).history = st.history := by
  unfold eraserMove
  cases st.erasingPath.getLast? with
  | none => rfl
  | some last => exact foldl_eraserStep_history _ _ _ _ _ _ _ _

lemma laserMove_history (now : ℚ) (st : CanvasState) (pos : Pt) :
    (laserMove now st pos).history = st.history := by
  simp only [laserMove]
  split <;> rfl

lemma updateDrawing_history (cfg : Config) (hyp : ℚ → ℚ → ℚ) (st : CanvasState)
    (pos : Pt) : (updateDrawing cfg hyp st pos).history = st.history := by
  unfold updateDrawing
  split <;> first | rfl | (split <;> first | rfl | (split <;> rfl))

lemma applyMove_history (st : CanvasState) (sel : Selected) (orig : Option Orig)
    (dx dy : ℚ) : (applyMove st sel orig dx dy).history = st.history := by
  unfold applyMove
  split <;> rfl

lemma applyResize_history (hyp : ℚ → ℚ → ℚ) (st : CanvasState) (sel : Selected)
    (orig : Option Orig) (handle : ℕ) (start pos : Pt) (dx dy : ℚ) :
    (applyResize hyp st sel orig handle start pos dx dy).history = st.history := by
  unfold applyResize
  split <;> rfl

lemma selectMove_some_history (cfg : Config) (hyp : ℚ → ℚ → ℚ) (st : CanvasState)
    (pos : Pt) (st1 : CanvasState) (h : selectMove cfg hyp st pos = some st1) :
    st1.history = st.history := by
  unfold selectMove at h
  split at h
  · split at h
    · cases h
      exact applyMove_history _ _ _ _ _
    · split at h
      · cases h
        exact applyResize_history _ _ _ _ _ _ _ _ _
      · cases h
  · cases h

lemma startDrawing_history (cfg : Config) (now : ℚ) (st : CanvasState) (pos : Pt) :
    (startDrawing cfg now st pos).history = st.history := by
  unfold startDrawing
  split <;> rfl

lemma endDrawing_history (cfg : Config) (st : CanvasState) :
    (endDrawing cfg st).history = st.history := by
  unfold endDrawing
  split
  · rfl
  · split
    · rfl
    · split
      · rfl
      · split <;> rfl

lemma onPointerMove_history (cfg : Config) (hyp : ℚ → ℚ → ℚ) (now : ℚ)
    (st : CanvasState) (client : Pt) :
    (onPointerMove cfg hyp now st client).history = st.history := by
  simp only [onPointerMove]
  split
  · rfl
  · generalize hsm : selectMove cfg hyp st (downPos cfg st client) = r
    cases r with
    | some st1 => exact selectMove_some_history _ _ _ _ _ hsm
    | none =>
      show (if cfg.tool = Tool.laser ∧ st.drawing = true then
          laserMove now st (downPos cfg st client)
        else if cfg.tool = Tool.eraser ∧ st.drawing = true then
          eraserMove hyp cfg.strokeWidth st (downPos cfg st client)
        else if st.drawing = true ∨ st.draft.isSome = true then
          updateDrawing cfg hyp st (downPos cfg st client)
        else st).history = st.history
      split
      · exact laserMove_history _ _ _
      · split
        · exact eraserMove_history _ _ _ _
        · split
          · exact updateDrawing_history _ _ _ _
          · rfl

lemma onPointerUp_history (cfg : Config) (st : CanvasState) :
    (onPointerUp cfg st).history = st.history := by
  unfold onPointerUp
  split
  · rfl
  · rfl
  · rfl
  · exact endDrawing_history _ _

lemma foldl_onPointerMove_history (cfg : Config) (hyp : ℚ → ℚ → ℚ) (now : ℚ) :
    ∀ (moves : List Pt) (st : CanvasState),
      (moves.foldl (onPointerMove cfg hyp now) st).history = st.history := by
  intro moves
  induction moves with
  | nil => intro st; rfl
  | cons m ms ih =>
    intro st
    rw [List.foldl_cons, ih, onPointerMove_history]

lemma onPointerDown_history (cfg : Config) (now : ℚ) (st : CanvasState) (client : Pt)
    (h : gestureBegins cfg st client = true) :
    (onPointerDown cfg now st client).history = pushSnap st.history (sceneOf st) := by
  cases htool : cfg.tool with
  | pan => simp [gestureBegins, htool] at h
  | laser => simp [gestureBegins, htool] at h
  | select =>
    cases hsel : st.selected with
    | some sel =>
      cases hh : handleUnderPointer st (downPos cfg st client).x (downPos cfg st client).y with
      | some hid => simp [onPointerDown, htool, hsel, hh, pushHistory]
      | none =>
        cases hsp : shapeUnderPointer st (downPos cfg st client).x (downPos cfg st client).y with
        | none => simp [gestureBegins, htool, hsel, hh, hsp] at h
        | some hit =>
          obtain ⟨k, i⟩ := hit
          cases k with
          | pen => simp [gestureBegins, htool, hsel, hh, hsp] at h
          | rect => simp [onPointerDown, htool, hsel, hh, hsp, pushHistory]
          | circle => simp [onPointerDown, htool, hsel, hh, hsp, pushHistory]
          | line => simp [onPointerDown, htool, hsel, hh, hsp, pushHistory]
          | arrow => simp [onPointerDown, htool, hsel, hh, hsp, pushHistory]
          | triangle => simp [onPointerDown, htool, hsel, hh, hsp, pushHistory]
    | none =>
      cases hsp : shapeUnderPointer st (downPos cfg st client).x (downPos cfg st client).y with
      | none => simp [gestureBegins, htool, hsel, hsp] at h
      | some hit =>
        obtain ⟨k, i⟩ := hit
        cases k with
        | pen => simp [gestureBegins, htool, hsel, hsp] at h
        | rect => simp [onPointerDown, htool, hsel, hsp, pushHistory]
        | circle => simp [onPointerDown, htool, hsel, hsp, pushHistory]
        | line => simp [onPointerDown, htool, hsel, hsp, pushHistory]
        | arrow => simp [onPointerDown, htool, hsel, hsp, pushHistory]
        | triangle => simp [onPointerDown, htool, hsel, hsp, pushHistory]
  | pen => simp [onPointerDown, htool, startDrawing, pushHistory]
  | eraser => simp [onPointerDown, htool, pushHistory]
  | rect => simp [onPointerDown, htool, startDrawing, pushHistory]
  | circle => simp [onPointerDown, htool, startDrawing, pushHistory]
  | line => simp [onPointerDown, htool, startDrawing, pushHistory]
  | arrow => simp [onPointerDown, htool, startDrawing, pushHistory]
  | triangle => simp [onPointerDown, htool, startDrawing, pushHistory]

lemma pushSnap_getLast (h : List Snapshot) (s : Snapshot) :
    (pushSnap h s).getLast? = some s := by
  simp only [pushSnap, MAX_HISTORY]
  split
  · cases h with
    | nil => simp_all
    | cons hd tl =>
      rw [List.cons_append, List.tail_cons]
      exact List.getLast?_concat _
  · exact List.getLast?_concat _

/-- C1: for every scene-mutating gesture (any tool except pan and laser; for
select, one that actually begins a move or resize interaction), pushing the
history snapshot at pointer-down and executing `undo()` after the gesture ends
yields the six shape sequences exactly as they were immediately before the
pointer-down, regardless of how many pointer-move updates occur during the
gesture. -/
theorem undo_after_gesture_restores_scene (cfg : Config) (hyp : ℚ → ℚ → ℚ) (now : ℚ)
    (st : CanvasState) (client : Pt) (moves : List Pt)
    (h : gestureBegins cfg st client = true) :
    sceneOf (undoStep (onPointerUp cfg
      (moves.foldl (onPointerMove cfg hyp now) (onPointerDown cfg now st client))))
      = sceneOf st := by
  have hhist : (onPointerUp cfg
      (moves.foldl (onPointerMove cfg hyp now) (onPointerDown cfg now st client))).history
      = pushSnap st.history (sceneOf st) := by
    rw [onPointerUp_history, foldl_onPointerMove_history, onPointerDown_history cfg now st client h]
  unfold undoStep
  rw [hhist, pushSnap_getLast]
  rfl

theorem undo_after_gesture_restores_scene_witness :
    sceneOf (undoStep (onPointerUp penCfg
      ([⟨3, 4⟩].foldl (onPointerMove penCfg (fun _ _ => 0) 0)
        (onPointerDown penCfg 0 emptyState ⟨0, 0⟩)))) = sceneOf emptyState :=
  undo_after_gesture_restores_scene penCfg (fun _ _ => 0) 0 emptyState ⟨0, 0⟩ [⟨3, 4⟩] rfl

end ChalkLet
